import Mathlib

/-!
# Telegram-RSS-Bot: verification of the feed-polling / deduplicated-delivery engine

Shallow embedding of the repository's polling and dedup logic.

* `src/main.py` — global state (`user_feeds`, `posted_entries`, `channel_id`),
  `fetch_feed`, `check_feeds`, `post_to_channel`, `add_feed`, `delete_feed`,
  and the persistence file names.
* `src/commands.py` — the newer command revision working on `bot_data`
  (`add_feed`, `delete_feed`, `update_every`, `manual_check`).

Python dicts are insertion-ordered, so they are embedded as association
lists with the dict operations `lookupA` (read), `setA` (`d[k] = v`:
overwrite in place, append when the key is new) and `eraseA` (`del d[k]`).
Network and messaging transports are oracles passed in as functions.
-/

namespace RSSBot

/-- Read a key from an insertion-ordered dictionary (`d.get(k)` / `d[k]`). -/
def lookupA {α : Type} : List (String × α) → String → Option α
  | [], _ => none
  | (k, v) :: rest, key => if k = key then some v else lookupA rest key

/-- Python dict assignment `d[key] = v`: overwrite the existing binding in
place, append at the end when the key is new. -/
def setA {α : Type} : List (String × α) → String → α → List (String × α)
  | [], key, v => [(key, v)]
  | (k, w) :: rest, key, v =>
    if k = key then (k, v) :: rest else (k, w) :: setA rest key v

/-- Python dict deletion `del d[key]` (keys are unique in a dict built by
`setA`, so removing the first binding is the whole effect). -/
def eraseA {α : Type} : List (String × α) → String → List (String × α)
  | [], _ => []
  | (k, w) :: rest, key => if k = key then rest else (k, w) :: eraseA rest key

/-- Python `list.remove(x)`: delete the first occurrence of `x`. -/
def removeFirst : List String → String → List String
  | [], _ => []
  | x :: xs, y => if x = y then xs else x :: removeFirst xs y

/-- An item parsed out of a fetched feed document.  Field `id` is the
feed-native identifier when the entry has one. -/
structure Entry where
  id : Option String
  title : String
  link : String
deriving DecidableEq

/-- The identifier of an entry (main.py lines 198 and 228): the
feed-native id, falling back to the entry link — in the source,
`entry.get` with the id key defaulting to `entry.link`. -/
def entryId (e : Entry) : String := e.id.getD e.link

/-- The rendered notification text — the lightning emoji followed by a
Markdown link, title in square brackets and link in parentheses
(main.py lines 202 and 230). -/
def renderMessage (e : Entry) : String :=
  "⚡️ [" ++ e.title ++ "](" ++ e.link ++ ")"

/-- Per-subscriber dedup bucket: entry id → delivery timestamp. -/
abbrev Bucket := List (String × String)

/-- The `posted_entries` dictionary: subscriber id → dedup bucket. -/
abbrev Ledger := List (String × Bucket)

/-- The `user_feeds` dictionary: subscriber id → list of source URLs. -/
abbrev Feeds := List (String × List String)

/-- The bucket of one subscriber, read with an empty-dict default
(`posted_entries.get` in the source). -/
def bucketOf (L : Ledger) (uid : String) : Bucket := (lookupA L uid).getD []

/-- Outcome of one network retrieval of a feed URL, as seen by
`fetch_feed` (main.py lines 167-177): an HTTP 200 response whose body
`feedparser.parse` turns into a list of entries, a non-200 status, or a
raised exception (timeout, transport error) carrying its message. -/
inductive NetResp where
  | ok (entries : List Entry)
  | httpError (code : Nat)
  | exn (msg : String)

/-- Fetching and parsing one feed, `fetch_feed` (main.py lines 167-177):
returns the parsed feed on success and an error string otherwise; every
exception is caught inside the function.  When the `aiohttp` session has
already been closed, `session.get` raises a RuntimeError whose message is
the closed-session text, which the same `except` turns into an error
tuple. -/
def fetch_feed (sessionClosed : Bool) (net : String → NetResp) (url : String) :
    Except String (List Entry) :=
  if sessionClosed then
    Except.error ("Error fetching " ++ url ++ ": Session is closed")
  else
    match net url with
    | NetResp.ok es => Except.ok es
    | NetResp.httpError c => Except.error ("Error fetching " ++ url ++ ": HTTP " ++ toString c)
    | NetResp.exn m => Except.error ("Error fetching " ++ url ++ ": " ++ m)

/-- Delivery transport oracle: `bot.send_message(chat_id, text)` either
succeeds (`true`) or raises (`false`). -/
abbrev Sink := String → String → Bool

/-- Bucket creation (main.py lines 199-200): when the subscriber has no
bucket yet in `posted_entries`, bind it to a fresh empty dict. -/
def ensureBucket (L : Ledger) (uid : String) : Ledger :=
  if (lookupA L uid).isSome then L else setA L uid []

/-- Timestamp assignment into the subscriber bucket under the entry id
(main.py line 204), performed after the bucket was ensured by lines
199-200. -/
def assignEntry (L : Ledger) (uid eid ts : String) : Ledger :=
  setA (ensureBucket L uid) uid (setA (bucketOf (ensureBucket L uid) uid) eid ts)

/-- The Dedup Ledger `record(S, E, t)` operation exactly as `check_feeds`
performs it (main.py lines 199-204, ledger effect only): ensure the
subscriber's bucket exists, then store the timestamp only when the id is
not already present. -/
def recordEntry (L : Ledger) (uid eid ts : String) : Ledger :=
  if (lookupA (bucketOf (ensureBucket L uid) uid) eid).isSome then ensureBucket L uid
  else assignEntry L uid eid ts

/-- Result of processing a run of entries or (user, url) pairs: the
ledger, the Delivery Sink calls made (tagged with the destination chat
and the entry), and whether an uncaught `send_message` exception aborted
the run. -/
structure StepOut where
  ledger : Ledger
  calls : List (String × Entry)
  aborted : Bool
deriving DecidableEq

/-- Prefix a made sink call onto a run's call list. -/
def prependCall (c : String × Entry) (r : StepOut) : StepOut :=
  ⟨r.ledger, c :: r.calls, r.aborted⟩

/-- Run a continuation on the ledger of a first step unless that step
aborted (an uncaught exception skips everything after it). -/
def seqStep (r : StepOut) (f : Ledger → StepOut) : StepOut :=
  if r.aborted then r
  else ⟨(f r.ledger).ledger, r.calls ++ (f r.ledger).calls, (f r.ledger).aborted⟩

/-- The inner entry loop of `check_feeds` (main.py lines 197-204): for
each entry in feed order, ensure the subscriber's bucket, skip entries
whose id is already recorded, otherwise call the sink and — only when the
call returns — record the id with the cycle timestamp (`assignEntry`).  A
raised `send_message` exception is not caught anywhere in `check_feeds`,
so a failing call ends the whole run (`aborted = true`); the call itself
was still made and is kept in `calls`. -/
def processEntries (send : Sink) (now uid : String) :
    List Entry → Ledger → StepOut
  | [], L => ⟨L, [], false⟩
  | e :: rest, L =>
    if (lookupA (bucketOf (ensureBucket L uid) uid) (entryId e)).isSome then
      processEntries send now uid rest (ensureBucket L uid)
    else if send uid (renderMessage e) then
      prependCall (uid, e)
        (processEntries send now uid rest (assignEntry L uid (entryId e) now))
    else ⟨ensureBucket L uid, [(uid, e)], true⟩

/-- The fan-out of `check_feeds` (main.py lines 185-204): one task per
(user, url) pair, results consumed in the same order; a fetch error for a
pair is logged and the pair skipped (`continue`), never raised. -/
def processPairs (net : String → NetResp) (send : Sink) (now : String) :
    List (String × String) → Ledger → StepOut
  | [], L => ⟨L, [], false⟩
  | (uid, url) :: rest, L =>
    match fetch_feed false net url with
    | Except.error _ => processPairs net send now rest L
    | Except.ok entries =>
      seqStep (processEntries send now uid entries L)
        (processPairs net send now rest)

/-- The batch of (user, url) pairs, one per subscriber and source in
insertion order (the list comprehension of main.py lines 186-188 and
192). -/
def pairsOf (f : Feeds) : List (String × String) :=
  f.flatMap (fun p => p.2.map (fun u => (p.1, u)))

/-- The entry loop of `post_to_channel` (main.py lines 227-234): test
membership against the channel bucket read with an empty default, send,
then create the channel bucket if needed and record with a fresh
timestamp (modelled by the single cycle value `now2`, unobservable
because no channel send ever happens — see `post_to_channel`). -/
def processEntriesChannel (send : Sink) (now2 ch : String) :
    List Entry → Ledger → StepOut
  | [], L => ⟨L, [], false⟩
  | e :: rest, L =>
    if (lookupA (bucketOf L ch) (entryId e)).isSome then
      processEntriesChannel send now2 ch rest L
    else if send ch (renderMessage e) then
      prependCall (ch, e)
        (processEntriesChannel send now2 ch rest (assignEntry L ch (entryId e) now2))
    else ⟨L, [(ch, e)], true⟩

/-- The fetch loop of `post_to_channel` (main.py lines 215-225), over the
same (user, url) pairs, with whatever session object it was handed. -/
def postPairsChannel (sessionClosed : Bool) (net : String → NetResp) (send : Sink)
    (now2 ch : String) : List (String × String) → Ledger → StepOut
  | [], L => ⟨L, [], false⟩
  | (_, url) :: rest, L =>
    match fetch_feed sessionClosed net url with
    | Except.error _ => postPairsChannel sessionClosed net send now2 ch rest L
    | Except.ok entries =>
      seqStep (processEntriesChannel send now2 ch entries L)
        (postPairsChannel sessionClosed net send now2 ch rest)

/-- Channel mirroring pass, `post_to_channel` (main.py lines 213-234). -/
def post_to_channel (sessionClosed : Bool) (net : String → NetResp) (send : Sink)
    (now2 ch : String) (feeds : Feeds) (L : Ledger) : StepOut :=
  postPairsChannel sessionClosed net send now2 ch (pairsOf feeds) L

/-- Persistence file for the subscriber list (main.py line 32). -/
def FEEDS_FILE : String := "user_feeds.json"

/-- Persistence file for the Delivery Record (main.py line 33). -/
def POSTED_ENTRIES_FILE : String := "posted_entries.json"

/-- Persistence file for the channel binding (main.py line 17). -/
def CHANNEL_CONFIG_FILE : String := "channel_config.json"

/-- The module-level state of main.py: `user_feeds`, `posted_entries`,
`channel_id` (lines 28-30). -/
structure BotState where
  user_feeds : Feeds
  posted_entries : Ledger
  channel_id : Option String
deriving DecidableEq

/-- Outcome of one `check_feeds` invocation: the state afterwards, the
sink calls made, which persistence files were written, and whether an
uncaught exception aborted the cycle. -/
structure CycleResult where
  state : BotState
  calls : List (String × Entry)
  savedFiles : List String
  aborted : Bool
deriving DecidableEq

/-- One poll cycle, `check_feeds` (main.py lines 179-211).  The fan-out over
(user, url) pairs runs inside `async with aiohttp.ClientSession()`; that
block ends at line 204, so when `post_to_channel(session)` is invoked at
line 208 the session is already closed (hence `sessionClosed = true`
there).  `save_posted_entries()` (line 210) is the only save call in the
function and is reached only when no `send_message` exception
propagated. -/
def check_feeds (net : String → NetResp) (send : Sink) (now now2 : String)
    (st : BotState) : CycleResult :=
  let r := processPairs net send now (pairsOf st.user_feeds) st.posted_entries
  if r.aborted then
    ⟨⟨st.user_feeds, r.ledger, st.channel_id⟩, r.calls, [], true⟩
  else
    match st.channel_id with
    | some ch =>
      let p := post_to_channel true net send now2 ch st.user_feeds r.ledger
      if p.aborted then
        ⟨⟨st.user_feeds, p.ledger, st.channel_id⟩, r.calls ++ p.calls, [], true⟩
      else
        ⟨⟨st.user_feeds, p.ledger, st.channel_id⟩, r.calls ++ p.calls,
          [POSTED_ENTRIES_FILE], false⟩
    | none =>
      ⟨⟨st.user_feeds, r.ledger, st.channel_id⟩, r.calls, [POSTED_ENTRIES_FILE], false⟩

/-- Adding a source, `add_feed` of main.py (lines 124-128), effect on
`user_feeds` for a given (already converted/validated) URL: append
unconditionally. -/
def main_add_feed (userId feedUrl : String) (f : Feeds) : Feeds :=
  match lookupA f userId with
  | some l => setA f userId (l ++ [feedUrl])
  | none => setA f userId [feedUrl]

/-- Removing a source, `delete_feed` of main.py (lines 141-153): when the
user has the URL,
`list.remove` the first occurrence and drop the user when the list
becomes empty; otherwise reply "not found" (second component: whether a
deletion happened and `save_feeds` was called). -/
def main_delete_feed (userId feedUrl : String) (f : Feeds) : Feeds × Bool :=
  match lookupA f userId with
  | some l =>
    if feedUrl ∈ l then
      let l1 := removeFirst l feedUrl
      if l1 = [] then (eraseA f userId, true) else (setA f userId l1, true)
    else (f, false)
  | none => (f, false)

/-- The `bot_data` mapping used by the newer command revision
(src/commands.py): `user_feeds`, `posted_entries`, `channel_id`, and
`user_settings` (each settings entry is a one-key dict holding the
update-interval minutes, carried here as the minutes value). -/
structure BotData where
  user_feeds : Feeds
  posted_entries : Ledger
  channel_id : Option String
  user_settings : List (String × Int)
deriving DecidableEq

/-- Adding a source, `add_feed` of commands.py (lines 50-80), effect for a
given (already
converted) URL: ensure the chat's list, append only when the URL is not
already present, and call `save_data` only in that case (second
component). -/
def commands_add_feed (chatId feedUrl : String) (d : BotData) : BotData × Bool :=
  let uf := if (lookupA d.user_feeds chatId).isSome then d.user_feeds
            else setA d.user_feeds chatId []
  let l := (lookupA uf chatId).getD []
  if feedUrl ∈ l then
    (⟨uf, d.posted_entries, d.channel_id, d.user_settings⟩, false)
  else
    (⟨setA uf chatId (l ++ [feedUrl]), d.posted_entries, d.channel_id, d.user_settings⟩, true)

/-- Removing a source, `delete_feed` of commands.py (lines 93-112): same
list surgery as the
main.py version, acting on `bot_data` and calling `save_data` (second
component) only when a deletion happened. -/
def commands_delete_feed (chatId feedUrl : String) (d : BotData) : BotData × Bool :=
  match lookupA d.user_feeds chatId with
  | some l =>
    if feedUrl ∈ l then
      let l1 := removeFirst l feedUrl
      let uf := if l1 = [] then eraseA d.user_feeds chatId else setA d.user_feeds chatId l1
      (⟨uf, d.posted_entries, d.channel_id, d.user_settings⟩, true)
    else (d, false)
  | none => (d, false)

/-- A repeating Scheduler timer: its interval (minutes) and the time of
its next firing. -/
structure Job where
  interval : Int
  nextRun : Int
deriving DecidableEq

/-- The job queue: one named repeating timer per chat. -/
abbrev Timers := List (String × Job)

/-- Modelled from the spec: `update_job_interval` is imported by
commands.py from the `main` revision, whose body is not among the source
files.  Spec §4.5 (`schedule` / `reschedule`): it "cancels any existing
timer under that subscriber's name, creates a new one" firing every
`interval` minutes, the first firing one interval from now. -/
def update_job_interval (timers : Timers) (chatId : String) (interval now : Int) :
    Timers :=
  setA timers chatId ⟨interval, now + interval⟩

/-- Digit run → number, `none` when empty or containing a non-digit. -/
def pyDigits : List Char → Option Nat
  | [] => none
  | ds =>
    if ds.all Char.isDigit then
      some (ds.foldl (fun n c => n * 10 + (c.toNat - Char.toNat '0')) 0)
    else none

/-- Python `int(s)` on a decimal string: optional leading minus sign then
digits; `none` models the raised `ValueError` otherwise. -/
def pyInt? (s : String) : Option Int :=
  match s.data with
  | '-' :: ds => (pyDigits ds).map (fun n => -(n : Int))
  | ds => (pyDigits ds).map (fun n => (n : Int))

/-- Parsing the first command argument as an integer in `update_every`
(commands.py line 142): `none` models the IndexError (no argument) or
ValueError (non-numeric argument) that the surrounding `try` catches. -/
def parseIntArg (args : List String) : Option Int :=
  args.head?.bind pyInt?

/-- The reply sent back by `update_every`. -/
inductive Reply where
  | invalidInterval
  | intervalSet (minutes : Int)
deriving DecidableEq

/-- Interval reconfiguration, `update_every` (commands.py lines 138-158):
parse the argument, raise ValueError when the interval is below 1; on
the exception path reply with the usage message and touch nothing.  On
success store the setting, call `save_data` (third component) and
replace the chat's timer. -/
def update_every (args : List String) (chatId : String) (d : BotData)
    (timers : Timers) (now : Int) : BotData × Timers × Bool × Reply :=
  match parseIntArg args with
  | some i =>
    if i < 1 then (d, timers, false, Reply.invalidInterval)
    else
      let d1 : BotData := ⟨d.user_feeds, d.posted_entries, d.channel_id,
        setA d.user_settings chatId i⟩
      (d1, update_job_interval timers chatId i now, true, Reply.intervalSet i)
  | none => (d, timers, false, Reply.invalidInterval)

/-- The interval in force for a chat, defaulting to 30 minutes — the
chained settings reads with defaults of commands.py line 125. -/
def effectiveInterval (settings : List (String × Int)) (chatId : String) : Int :=
  (lookupA settings chatId).getD 30

/-- Manual trigger, `manual_check` (commands.py lines 114-136).
`check_feeds_func` is
supplied by the caller and its body is not among the source files; it is
the abstract poll-cycle parameter `cycle` here (modelled from the spec:
one Poll Cycle over the bot data).  `update_job_interval` is the
spec-modelled timer replacement above.  After running the cycle once the
command restarts the chat's job with the configured interval (the code
comment at line 123 reads "Restart the job for this chat") and replies
with `next_update = now + interval` and the interval. -/
def manual_check (cycle : BotData → BotData) (chatId : String) (d : BotData)
    (timers : Timers) (now : Int) : BotData × Timers × (Int × Int) :=
  let d1 := cycle d
  let interval := effectiveInterval d1.user_settings chatId
  let timers1 := update_job_interval timers chatId interval now
  (d1, timers1, (now + interval, interval))

/-! ## Dictionary lemmas -/

theorem lookupA_setA {α : Type} (l : List (String × α)) (k : String) (v : α)
    (k' : String) :
    lookupA (setA l k v) k' = if k = k' then some v else lookupA l k' := by
  induction l with
  | nil => simp [setA, lookupA]
  | cons hd tl ih =>
    obtain ⟨k0, w⟩ := hd
    simp only [setA]
    by_cases h0 : k0 = k
    · subst h0
      simp only [if_pos rfl, lookupA]
      by_cases h1 : k0 = k'
      · simp [h1]
      · simp [lookupA, h1]
    · simp only [if_neg h0, lookupA]
      by_cases h1 : k0 = k'
      · subst h1
        have h2 : ¬ k = k0 := fun hh => h0 hh.symm
        simp [h2]
      · simp [h1, ih]

theorem lookupA_setA_self {α : Type} (l : List (String × α)) (k : String) (v : α) :
    lookupA (setA l k v) k = some v := by
  simp [lookupA_setA]

theorem lookupA_setA_ne {α : Type} (l : List (String × α)) (k : String) (v : α)
    (k' : String) (h : k' ≠ k) :
    lookupA (setA l k v) k' = lookupA l k' := by
  have h2 : ¬ k = k' := fun hh => h hh.symm
  simp [lookupA_setA, h2]

theorem lookupA_eraseA_ne {α : Type} (l : List (String × α)) (k k' : String)
    (h : k' ≠ k) : lookupA (eraseA l k) k' = lookupA l k' := by
  induction l with
  | nil => rfl
  | cons hd tl ih =>
    obtain ⟨k0, w⟩ := hd
    simp only [eraseA]
    by_cases h0 : k0 = k
    · subst h0
      have h2 : ¬ k0 = k' := fun hh => h (hh.symm : k' = k0)
      simp [lookupA, h2]
    · simp only [if_neg h0, lookupA]
      by_cases h1 : k0 = k'
      · simp [h1]
      · simp [h1, ih]

theorem lookupA_none_of_not_mem_keys {α : Type} (l : List (String × α)) (k : String)
    (h : k ∉ l.map Prod.fst) : lookupA l k = none := by
  induction l with
  | nil => rfl
  | cons hd tl ih =>
    obtain ⟨k0, w⟩ := hd
    simp only [List.map_cons, List.mem_cons] at h
    push_neg at h
    have h1 : ¬ k0 = k := fun hh => h.1 hh.symm
    simp only [lookupA, if_neg h1]
    exact ih h.2

theorem lookupA_eraseA_self {α : Type} (l : List (String × α)) (k : String)
    (hnd : (l.map Prod.fst).Nodup) : lookupA (eraseA l k) k = none := by
  induction l with
  | nil => rfl
  | cons hd tl ih =>
    obtain ⟨k0, w⟩ := hd
    simp only [List.map_cons, List.nodup_cons] at hnd
    simp only [eraseA]
    by_cases h0 : k0 = k
    · subst h0
      simp only [if_pos rfl]
      exact lookupA_none_of_not_mem_keys tl k0 hnd.1
    · simp only [if_neg h0, lookupA, if_neg h0]
      exact ih hnd.2

/-! ## Bucket-level lemmas about the ledger operations of the Poll Cycle -/

theorem bucketOf_setA_self (L : Ledger) (uid : String) (b : Bucket) :
    bucketOf (setA L uid b) uid = b := by
  simp [bucketOf, lookupA_setA_self]

theorem bucketOf_setA_ne (L : Ledger) (uid : String) (b : Bucket) (S : String)
    (h : S ≠ uid) : bucketOf (setA L uid b) S = bucketOf L S := by
  simp [bucketOf, lookupA_setA_ne _ _ _ _ h]

theorem bucketOf_ensure_some (L : Ledger) (uid S eid t : String)
    (h : lookupA (bucketOf L S) eid = some t) :
    lookupA (bucketOf (ensureBucket L uid) S) eid = some t := by
  unfold ensureBucket
  by_cases hu : (lookupA L uid).isSome
  · simp [hu, h]
  · simp only [hu, if_false, Bool.false_eq_true]
    by_cases hS : S = uid
    · subst hS
      have : lookupA L S = none := by
        cases hh : lookupA L S with
        | none => rfl
        | some b => rw [hh] at hu; simp at hu
      rw [bucketOf, this] at h
      simp [lookupA] at h
    · rw [bucketOf_setA_ne _ _ _ _ hS]
      exact h

theorem bucketOf_ensure_none (L : Ledger) (uid S eid : String)
    (h : lookupA (bucketOf L S) eid = none) :
    lookupA (bucketOf (ensureBucket L uid) S) eid = none := by
  unfold ensureBucket
  by_cases hu : (lookupA L uid).isSome
  · simp [hu, h]
  · simp only [hu, if_false, Bool.false_eq_true]
    by_cases hS : S = uid
    · subst hS
      rw [bucketOf_setA_self]
      rfl
    · rw [bucketOf_setA_ne _ _ _ _ hS]
      exact h

theorem bucketOf_assign_some (L : Ledger) (uid S eid t k v : String)
    (hk : lookupA (bucketOf L uid) k = none)
    (h : lookupA (bucketOf L S) eid = some t) :
    lookupA (bucketOf (setA L uid (setA (bucketOf L uid) k v)) S) eid = some t := by
  by_cases hS : S = uid
  · subst hS
    rw [bucketOf_setA_self, lookupA_setA]
    have hne : ¬ k = eid := by
      intro hh; subst hh; rw [h] at hk; exact Option.noConfusion hk
    simp [hne, h]
  · rw [bucketOf_setA_ne _ _ _ _ hS]
    exact h

theorem bucketOf_assignEntry_some (L : Ledger) (uid S eid t k v : String)
    (hk : lookupA (bucketOf (ensureBucket L uid) uid) k = none)
    (h : lookupA (bucketOf L S) eid = some t) :
    lookupA (bucketOf (assignEntry L uid k v) S) eid = some t :=
  bucketOf_assign_some (ensureBucket L uid) uid S eid t k v hk
    (bucketOf_ensure_some L uid S eid t h)

/-! ## Stability of recorded ids through a Poll Cycle -/

/-- Through the entry loop: an id already recorded for `S` keeps its
timestamp, and no sink call tagged `S` is ever made for that id. -/
theorem processEntries_recorded_stable (send : Sink) (now uid S eid t : String) :
    ∀ (es : List Entry) (L : Ledger),
      lookupA (bucketOf L S) eid = some t →
      lookupA (bucketOf (processEntries send now uid es L).ledger S) eid = some t ∧
      ∀ E : Entry, (S, E) ∈ (processEntries send now uid es L).calls →
        entryId E ≠ eid := by
  intro es
  induction es with
  | nil =>
    intro L h
    refine ⟨h, ?_⟩
    intro E hE
    simp [processEntries] at hE
  | cons e rest ih =>
    intro L h
    have hL1 : lookupA (bucketOf (ensureBucket L uid) S) eid = some t :=
      bucketOf_ensure_some L uid S eid t h
    by_cases hmem : (lookupA (bucketOf (ensureBucket L uid) uid) (entryId e)).isSome = true
    · have hrec := ih (ensureBucket L uid) hL1
      constructor
      · simpa [processEntries, hmem] using hrec.1
      · intro E hE
        rw [show processEntries send now uid (e :: rest) L
              = processEntries send now uid rest (ensureBucket L uid) by
            simp [processEntries, hmem]] at hE
        exact hrec.2 E hE
    · have hnone : lookupA (bucketOf (ensureBucket L uid) uid) (entryId e) = none := by
        cases hx : lookupA (bucketOf (ensureBucket L uid) uid) (entryId e) with
        | none => rfl
        | some ts => rw [hx] at hmem; simp at hmem
      have hne : ∀ E : Entry, S = uid → E = e → entryId E ≠ eid := by
        intro E hSu hEe hcontra
        subst hSu; subst hEe
        rw [hcontra] at hnone
        rw [hL1] at hnone
        exact Option.noConfusion hnone
      by_cases hsend : send uid (renderMessage e) = true
      · have hL2 : lookupA (bucketOf (assignEntry L uid (entryId e) now) S) eid = some t :=
          bucketOf_assignEntry_some L uid S eid t (entryId e) now hnone h
        obtain ⟨hp, hc⟩ := ih (assignEntry L uid (entryId e) now) hL2
        constructor
        · simpa [processEntries, hmem, hsend, prependCall] using hp
        · intro E hE
          simp only [processEntries, hmem, hsend, prependCall, if_false, if_true,
            Bool.false_eq_true, List.mem_cons] at hE
          rcases hE with hE | hE
          · exact hne E (congrArg Prod.fst hE) (congrArg Prod.snd hE)
          · exact hc E hE
      · constructor
        · simpa [processEntries, hmem, hsend] using hL1
        · intro E hE
          simp only [processEntries, hmem, hsend, if_false, if_true,
            Bool.false_eq_true, List.mem_cons, List.mem_singleton] at hE
          rcases hE with hE | hE
          · exact hne E (congrArg Prod.fst hE) (congrArg Prod.snd hE)
          · simp at hE

/-- Through the fan-out over (user, url) pairs: same stability. -/
theorem processPairs_recorded_stable (net : String → NetResp) (send : Sink)
    (now S eid t : String) :
    ∀ (prs : List (String × String)) (L : Ledger),
      lookupA (bucketOf L S) eid = some t →
      lookupA (bucketOf (processPairs net send now prs L).ledger S) eid = some t ∧
      ∀ E : Entry, (S, E) ∈ (processPairs net send now prs L).calls →
        entryId E ≠ eid := by
  intro prs
  induction prs with
  | nil =>
    intro L h
    refine ⟨h, ?_⟩
    intro E hE
    simp [processPairs] at hE
  | cons p rest ih =>
    obtain ⟨uid, url⟩ := p
    intro L h
    cases hf : fetch_feed false net url with
    | error m =>
      have := ih L h
      constructor
      · simpa [processPairs, hf] using this.1
      · intro E hE
        rw [show processPairs net send now ((uid, url) :: rest) L
              = processPairs net send now rest L by simp [processPairs, hf]] at hE
        exact this.2 E hE
    | ok entries =>
      obtain ⟨hp, hc⟩ := processEntries_recorded_stable send now uid S eid t entries L h
      by_cases hab : (processEntries send now uid entries L).aborted = true
      · constructor
        · simpa [processPairs, hf, seqStep, hab] using hp
        · intro E hE
          rw [show processPairs net send now ((uid, url) :: rest) L
                = processEntries send now uid entries L by
              simp [processPairs, hf, seqStep, hab]] at hE
          exact hc E hE
      · obtain ⟨hp2, hc2⟩ := ih (processEntries send now uid entries L).ledger hp
        constructor
        · simpa [processPairs, hf, seqStep, hab] using hp2
        · intro E hE
          simp only [processPairs, hf, seqStep, hab, if_false, Bool.false_eq_true,
            List.mem_append] at hE
          rcases hE with hE | hE
          · exact hc E hE
          · exact hc2 E hE

/-- With a closed session every fetch in `post_to_channel` errors out and
is skipped, so the channel pass does nothing at all. -/
theorem postPairsChannel_closed (net : String → NetResp) (send : Sink)
    (now2 ch : String) :
    ∀ (prs : List (String × String)) (L : Ledger),
      postPairsChannel true net send now2 ch prs L = ⟨L, [], false⟩ := by
  intro prs
  induction prs with
  | nil => intro L; rfl
  | cons p rest ih =>
    obtain ⟨uid, url⟩ := p
    intro L
    simp [postPairsChannel, fetch_feed, ih]

theorem post_to_channel_closed (net : String → NetResp) (send : Sink)
    (now2 ch : String) (feeds : Feeds) (L : Ledger) :
    post_to_channel true net send now2 ch feeds L = ⟨L, [], false⟩ :=
  postPairsChannel_closed net send now2 ch (pairsOf feeds) L

/-- Through one whole `check_feeds` invocation: an id recorded for `S`
keeps its timestamp and the Delivery Sink is never called for `(S, id)`
again — whatever the fetched entries, the sink behaviour, and the
channel binding. -/
theorem check_feeds_recorded_stable (net : String → NetResp) (send : Sink)
    (now now2 : String) (st : BotState) (S eid t : String)
    (h : lookupA (bucketOf st.posted_entries S) eid = some t) :
    lookupA (bucketOf (check_feeds net send now now2 st).state.posted_entries S) eid
      = some t ∧
    ∀ E : Entry, (S, E) ∈ (check_feeds net send now now2 st).calls →
      entryId E ≠ eid := by
  obtain ⟨hp, hc⟩ := processPairs_recorded_stable net send now S eid t
    (pairsOf st.user_feeds) st.posted_entries h
  unfold check_feeds
  by_cases hab : (processPairs net send now (pairsOf st.user_feeds) st.posted_entries).aborted = true
  · simp only [hab, if_true]
    exact ⟨hp, hc⟩
  · cases hch : st.channel_id with
    | none =>
      simp only [hab, hch, if_false, Bool.false_eq_true]
      exact ⟨hp, hc⟩
    | some ch =>
      have hpost := post_to_channel_closed net send now2 ch st.user_feeds
        (processPairs net send now (pairsOf st.user_feeds) st.posted_entries).ledger
      simp only [hab, hch, hpost, if_false, Bool.false_eq_true, List.append_nil]
      exact ⟨hp, hc⟩

/-! ## Claim theorems -/

/-- C1: Idempotent delivery — once entry id `entryId E` has been recorded in
the dedup bucket of subscriber `S` (with timestamp `t`), running a poll cycle
(`check_feeds`) again, with any fetched results including the same entry,
never calls the Delivery Sink for `(S, E)` again and leaves the bucket of `S` with its
entry for it unchanged. -/
theorem idempotent_delivery (net : String → NetResp) (send : Sink)
    (now now2 : String) (st : BotState) (S : String) (E : Entry) (t : String)
    (h : lookupA (bucketOf st.posted_entries S) (entryId E) = some t) :
    (∀ E2 : Entry, (S, E2) ∈ (check_feeds net send now now2 st).calls →
      entryId E2 ≠ entryId E) ∧
    lookupA (bucketOf (check_feeds net send now now2 st).state.posted_entries S)
      (entryId E) = some t := by
  obtain ⟨hp, hc⟩ := check_feeds_recorded_stable net send now now2 st S (entryId E) t h
  exact ⟨hc, hp⟩

/-- Witness for C1: the spec's scenario — subscriber `"100"` whose bucket
already maps id `"a"` to `"ts"`, the same entry fetched again: its
bucket entry is untouched by the second cycle. -/
theorem idempotent_delivery_witness :
    lookupA (bucketOf (check_feeds
      (fun u => if u = "feed.xml" then NetResp.ok [⟨some "a", "T1", "L1"⟩]
                else NetResp.exn "down")
      (fun _ _ => true) "t1" "t2"
      ⟨[("100", ["feed.xml"])], [("100", [("a", "ts")])], none⟩).state.posted_entries
      "100") (entryId ⟨some "a", "T1", "L1"⟩) = some "ts" :=
  (idempotent_delivery
    (fun u => if u = "feed.xml" then NetResp.ok [⟨some "a", "T1", "L1"⟩]
              else NetResp.exn "down")
    (fun _ _ => true) "t1" "t2"
    ⟨[("100", ["feed.xml"])], [("100", [("a", "ts")])], none⟩
    "100" ⟨some "a", "T1", "L1"⟩ "ts" (by decide)).2

/-- C3: First-seen-wins — recording an id twice keeps the first timestamp,
and recording never removes or overwrites any identifier already present
in any subscriber's bucket. -/
theorem record_first_seen_wins :
    (∀ (L : Ledger) (uid eid t1 t2 : String),
      lookupA (bucketOf L uid) eid = none →
      lookupA (bucketOf (recordEntry (recordEntry L uid eid t1) uid eid t2) uid) eid
        = some t1) ∧
    (∀ (L : Ledger) (uid eid ts S e t : String),
      lookupA (bucketOf L S) e = some t →
      lookupA (bucketOf (recordEntry L uid eid ts) S) e = some t) := by
  constructor
  · intro L uid eid t1 t2 h
    have h1 : lookupA (bucketOf (ensureBucket L uid) uid) eid = none :=
      bucketOf_ensure_none L uid uid eid h
    have e1 : recordEntry L uid eid t1 = assignEntry L uid eid t1 := by
      simp [recordEntry, h1]
    have h2 : lookupA (bucketOf (assignEntry L uid eid t1) uid) eid = some t1 := by
      unfold assignEntry
      rw [bucketOf_setA_self, lookupA_setA_self]
    have h3 : lookupA
        (bucketOf (ensureBucket (assignEntry L uid eid t1) uid) uid) eid = some t1 :=
      bucketOf_ensure_some _ uid uid eid t1 h2
    rw [e1]
    simp [recordEntry, h3]
  · intro L uid eid ts S e t h
    unfold recordEntry
    by_cases hm : (lookupA (bucketOf (ensureBucket L uid) uid) eid).isSome = true
    · simp only [hm, if_true]
      exact bucketOf_ensure_some L uid S e t h
    · have hn : lookupA (bucketOf (ensureBucket L uid) uid) eid = none := by
        cases hx : lookupA (bucketOf (ensureBucket L uid) uid) eid with
        | none => rfl
        | some w => rw [hx] at hm; simp at hm
      simp only [hm, if_false, Bool.false_eq_true]
      exact bucketOf_assignEntry_some L uid S e t eid ts hn h

/-- Witness for C3: recording id `"a"` at `"t1"` then `"t2"` keeps `"t1"`. -/
theorem record_first_seen_wins_witness :
    lookupA (bucketOf (recordEntry (recordEntry [] "100" "a" "t1") "100" "a" "t2")
      "100") "a" = some "t1" :=
  record_first_seen_wins.1 [] "100" "a" "t1" "t2" (by decide)

/-- C6 (code bug): with channel binding `"200"` configured and subscriber
the source of `"100"` returning one new entry, the cycle delivers to `"100"`
and records it once — but nothing is ever mirrored to the channel and no
channel bucket is created, because `post_to_channel(session)` (main.py
line 208) runs after the `async with` block has closed the session, so
every channel-pass fetch fails with `Session is closed` and is skipped. -/
theorem channel_mirroring_dead :
    (check_feeds
      (fun u => if u = "feed.xml" then NetResp.ok [⟨some "a", "T1", "L1"⟩]
                else NetResp.exn "down")
      (fun _ _ => true) "t" "t2"
      ⟨[("100", ["feed.xml"])], [], some "200"⟩).calls
      = [("100", ⟨some "a", "T1", "L1"⟩)] ∧
    lookupA (check_feeds
      (fun u => if u = "feed.xml" then NetResp.ok [⟨some "a", "T1", "L1"⟩]
                else NetResp.exn "down")
      (fun _ _ => true) "t" "t2"
      ⟨[("100", ["feed.xml"])], [], some "200"⟩).state.posted_entries "200" = none ∧
    lookupA (bucketOf (check_feeds
      (fun u => if u = "feed.xml" then NetResp.ok [⟨some "a", "T1", "L1"⟩]
                else NetResp.exn "down")
      (fun _ _ => true) "t" "t2"
      ⟨[("100", ["feed.xml"])], [], some "200"⟩).state.posted_entries "100") "a"
      = some "t" ∧
    (check_feeds
      (fun u => if u = "feed.xml" then NetResp.ok [⟨some "a", "T1", "L1"⟩]
                else NetResp.exn "down")
      (fun _ _ => true) "t" "t2"
      ⟨[("100", ["feed.xml"])], [], some "200"⟩).aborted = false := by
  refine ⟨rfl, rfl, rfl, rfl⟩

/-- Counterexample to C8 as stated: `add_feed` of main.py appends
unconditionally, so adding the same URL twice leaves subscriber `"100"`
with the URL twice in its source list. -/
theorem source_uniqueness_cex :
    ((lookupA (main_add_feed "100" "u" (main_add_feed "100" "u" [])) "100").getD
      []).count "u" = 2 := by
  decide

/-- C8 (amended): `add_feed` of commands.py keeps source lists
duplicate-free — adding a URL already present is a no-op that does not
save, and the no-duplicates invariant of a chat's list is preserved by
every add.  (main.py's `add_feed` appends unconditionally, see
`source_uniqueness_cex`.) -/
theorem source_uniqueness_commands :
    (∀ (chatId url : String) (d : BotData),
      url ∈ (lookupA d.user_feeds chatId).getD [] →
      commands_add_feed chatId url d = (d, false)) ∧
    (∀ (chatId url : String) (d : BotData),
      ((lookupA d.user_feeds chatId).getD []).Nodup →
      ((lookupA (commands_add_feed chatId url d).1.user_feeds chatId).getD
        []).Nodup) := by
  constructor
  · intro chatId url d hmem
    cases hx : lookupA d.user_feeds chatId with
    | none => rw [hx] at hmem; simp at hmem
    | some l =>
      rw [hx] at hmem
      simp only [Option.getD_some] at hmem
      have hs : (lookupA d.user_feeds chatId).isSome = true := by rw [hx]; rfl
      simp [commands_add_feed, hs, hx, hmem]
  · intro chatId url d hnd
    by_cases hs : (lookupA d.user_feeds chatId).isSome = true
    · cases hx : lookupA d.user_feeds chatId with
      | none => rw [hx] at hs; simp at hs
      | some l =>
        rw [hx] at hnd
        simp only [Option.getD_some] at hnd
        by_cases hmem : url ∈ l
        · simp [commands_add_feed, hs, hx, hmem, hnd]
        · have huf : (commands_add_feed chatId url d).1.user_feeds
              = setA d.user_feeds chatId (l ++ [url]) := by
            simp [commands_add_feed, hx, hmem]
          rw [huf, lookupA_setA_self]
          simp only [Option.getD_some]
          simp [List.nodup_append, hnd, hmem]
    · cases hx : lookupA d.user_feeds chatId with
      | some l => rw [hx] at hs; simp at hs
      | none =>
        have huf : (commands_add_feed chatId url d).1.user_feeds
            = setA (setA d.user_feeds chatId []) chatId [url] := by
          simp [commands_add_feed, hx, lookupA_setA_self]
        rw [huf, lookupA_setA_self]
        simp

/-- Witness for C8 (amended): adding `"u"` when it is already the sole
source of `"100"` changes nothing and does not save. -/
theorem source_uniqueness_commands_witness :
    commands_add_feed "100" "u" ⟨[("100", ["u"])], [], none, []⟩
      = (⟨[("100", ["u"])], [], none, []⟩, false) :=
  source_uniqueness_commands.1 "100" "u" ⟨[("100", ["u"])], [], none, []⟩ (by decide)

/-- C7: Interval validation — a request with no argument, a non-numeric
argument, or an interval below 1 minute is rejected synchronously with
the invalid-interval reply; the bot data and the timers are returned
unchanged, nothing is saved, and the previously effective interval
(default 30) stays in force. -/
theorem interval_validation (args : List String) (chatId : String) (d : BotData)
    (timers : Timers) (now : Int)
    (h : parseIntArg args = none ∨ ∃ i : Int, parseIntArg args = some i ∧ i < 1) :
    update_every args chatId d timers now = (d, timers, false, Reply.invalidInterval) ∧
    effectiveInterval (update_every args chatId d timers now).1.user_settings chatId
      = effectiveInterval d.user_settings chatId := by
  have hmain : update_every args chatId d timers now
      = (d, timers, false, Reply.invalidInterval) := by
    rcases h with h | ⟨i, hi, hlt⟩
    · simp [update_every, h]
    · simp [update_every, hi, hlt]
  exact ⟨hmain, by rw [hmain]⟩

/-- Witness for C7: the spec's scenario `set_interval("100", 0)` is
rejected, leaving data and timers untouched. -/
theorem interval_validation_witness :
    update_every ["0"] "100" ⟨[], [], none, []⟩ [("100", ⟨30, 500⟩)] 1000
      = (⟨[], [], none, []⟩, [("100", ⟨30, 500⟩)], false, Reply.invalidInterval) :=
  (interval_validation ["0"] "100" ⟨[], [], none, []⟩ [("100", ⟨30, 500⟩)] 1000
    (Or.inr ⟨0, rfl, by decide⟩)).1

/-- Counterexample to C9 as stated: a manual check does **not** leave the
existing repeating timer untouched — with the chat's timer previously due
at 500, `manual_check` at time 1000 replaces it by one due at 1030. -/
theorem manual_trigger_cex :
    (manual_check (fun d => d) "100" ⟨[], [], none, []⟩
      [("100", ⟨30, 500⟩)] 1000).2.1 ≠ [("100", ⟨30, 500⟩)] := by
  decide

/-- C9 (amended): `manual_check` runs the poll cycle exactly once on the
bot data, then **restarts** the chat's repeating timer with the
configured interval (next firing `now + interval`; other chats' timers
untouched) — the code comment at commands.py line 123 reads "Restart the
job for this chat" — and reports that next firing time and the interval
back to the caller. -/
theorem manual_trigger_restarts (cycle : BotData → BotData) (chatId : String)
    (d : BotData) (timers : Timers) (now : Int) :
    (manual_check cycle chatId d timers now).1 = cycle d ∧
    lookupA (manual_check cycle chatId d timers now).2.1 chatId
      = some ⟨effectiveInterval (cycle d).user_settings chatId,
              now + effectiveInterval (cycle d).user_settings chatId⟩ ∧
    (∀ c : String, c ≠ chatId →
      lookupA (manual_check cycle chatId d timers now).2.1 c = lookupA timers c) ∧
    (manual_check cycle chatId d timers now).2.2
      = (now + effectiveInterval (cycle d).user_settings chatId,
         effectiveInterval (cycle d).user_settings chatId) := by
  refine ⟨rfl, ?_, ?_, rfl⟩
  · simp [manual_check, update_job_interval, lookupA_setA_self]
  · intro c hc
    simp [manual_check, update_job_interval, lookupA_setA_ne _ _ _ _ hc]

/-- Witness for C9 (amended): another chat's timer (`"7"`) is untouched by
a manual check for `"100"`. -/
theorem manual_trigger_restarts_witness :
    lookupA (manual_check (fun d => d) "100" ⟨[], [], none, []⟩
      [("100", ⟨30, 500⟩), ("7", ⟨5, 60⟩)] 1000).2.1 "7" = some ⟨5, 60⟩ :=
  ((manual_trigger_restarts (fun d => d) "100" ⟨[], [], none, []⟩
    [("100", ⟨30, 500⟩), ("7", ⟨5, 60⟩)] 1000).2.2.1 "7" (by decide)).trans (by decide)

/-- A cycle over a single subscriber `S` with sole source `u` yielding the
single not-yet-recorded entry `E` makes exactly the one sink call
`(S, E)` — whatever the sink then does. -/
theorem check_feeds_single_attempt (net : String → NetResp) (send : Sink)
    (now now2 S u : String) (E : Entry) (L : Ledger) (chan : Option String)
    (hnet : net u = NetResp.ok [E])
    (hnew : lookupA (bucketOf L S) (entryId E) = none) :
    (check_feeds net send now now2 ⟨[(S, [u])], L, chan⟩).calls = [(S, E)] := by
  have hnone : lookupA (bucketOf (ensureBucket L S) S) (entryId E) = none :=
    bucketOf_ensure_none L S S (entryId E) hnew
  have hpr : pairsOf [(S, [u])] = [(S, u)] := rfl
  cases hs : send S (renderMessage E) with
  | false =>
    have hpe : processEntries send now S [E] L = ⟨ensureBucket L S, [(S, E)], true⟩ := by
      simp [processEntries, hnone, hs]
    have hpp : processPairs net send now [(S, u)] L
        = ⟨ensureBucket L S, [(S, E)], true⟩ := by
      simp [processPairs, fetch_feed, hnet, hpe, seqStep]
    simp [check_feeds, hpr, hpp]
  | true =>
    have hpe : processEntries send now S [E] L
        = ⟨assignEntry L S (entryId E) now, [(S, E)], false⟩ := by
      simp [processEntries, hnone, hs, prependCall]
    have hpp : processPairs net send now [(S, u)] L
        = ⟨assignEntry L S (entryId E) now, [(S, E)], false⟩ := by
      simp [processPairs, fetch_feed, hnet, hpe, seqStep]
    cases chan with
    | none => simp [check_feeds, hpr, hpp]
    | some ch => simp [check_feeds, hpr, hpp, post_to_channel_closed]

/-- Counterexample to C2 as stated: the claim says a Delivery Sink failure
"is never raised as a fatal condition aborting the rest of the cycle", but
`bot.send_message` is not wrapped in any try/except inside `check_feeds`
(main.py line 203): with two new entries and the sink failing on the
first, the cycle aborts — the second entry is never attempted and nothing
is saved. -/
theorem delivery_failure_aborts_cex :
    (check_feeds
      (fun u => if u = "f" then
          NetResp.ok [⟨some "a", "T1", "L1"⟩, ⟨some "b", "T2", "L2"⟩]
        else NetResp.exn "down")
      (fun _ m => m != renderMessage ⟨some "a", "T1", "L1"⟩) "t" "t2"
      ⟨[("100", ["f"])], [], none⟩).aborted = true ∧
    (check_feeds
      (fun u => if u = "f" then
          NetResp.ok [⟨some "a", "T1", "L1"⟩, ⟨some "b", "T2", "L2"⟩]
        else NetResp.exn "down")
      (fun _ m => m != renderMessage ⟨some "a", "T1", "L1"⟩) "t" "t2"
      ⟨[("100", ["f"])], [], none⟩).calls = [("100", ⟨some "a", "T1", "L1"⟩)] ∧
    (check_feeds
      (fun u => if u = "f" then
          NetResp.ok [⟨some "a", "T1", "L1"⟩, ⟨some "b", "T2", "L2"⟩]
        else NetResp.exn "down")
      (fun _ m => m != renderMessage ⟨some "a", "T1", "L1"⟩) "t" "t2"
      ⟨[("100", ["f"])], [], none⟩).savedFiles = [] := by
  refine ⟨rfl, rfl, rfl⟩

/-- C2 (amended): when the Delivery Sink fails for `(S, E)`, the entry's
identifier is not recorded in the dedup bucket of `S`, and a subsequent poll
cycle fetching the same entry calls the sink for `(S, E)` again; however
the failure is not caught or logged by `check_feeds` — it propagates,
aborting the rest of the cycle (the call list stops at the failing call
and no persistence file is written). -/
theorem delivery_failure_retry (S u now now2 : String) (E : Entry) (L : Ledger)
    (chan : Option String) (net : String → NetResp) (send : Sink)
    (hnet : net u = NetResp.ok [E])
    (hnew : lookupA (bucketOf L S) (entryId E) = none)
    (hfail : send S (renderMessage E) = false) :
    (check_feeds net send now now2 ⟨[(S, [u])], L, chan⟩).calls = [(S, E)] ∧
    (check_feeds net send now now2 ⟨[(S, [u])], L, chan⟩).aborted = true ∧
    (check_feeds net send now now2 ⟨[(S, [u])], L, chan⟩).savedFiles = [] ∧
    lookupA (bucketOf
      (check_feeds net send now now2 ⟨[(S, [u])], L, chan⟩).state.posted_entries S)
      (entryId E) = none ∧
    ∀ (send2 : Sink) (n3 n4 : String),
      (S, E) ∈ (check_feeds net send2 n3 n4
        (check_feeds net send now now2 ⟨[(S, [u])], L, chan⟩).state).calls := by
  have hnone : lookupA (bucketOf (ensureBucket L S) S) (entryId E) = none :=
    bucketOf_ensure_none L S S (entryId E) hnew
  have hpr : pairsOf [(S, [u])] = [(S, u)] := rfl
  have hpe : processEntries send now S [E] L = ⟨ensureBucket L S, [(S, E)], true⟩ := by
    simp [processEntries, hnone, hfail]
  have hpp : processPairs net send now [(S, u)] L
      = ⟨ensureBucket L S, [(S, E)], true⟩ := by
    simp [processPairs, fetch_feed, hnet, hpe, seqStep]
  have hcf : check_feeds net send now now2 ⟨[(S, [u])], L, chan⟩
      = ⟨⟨[(S, [u])], ensureBucket L S, chan⟩, [(S, E)], [], true⟩ := by
    simp [check_feeds, hpr, hpp]
  refine ⟨?_, ?_, ?_, ?_, ?_⟩
  · rw [hcf]
  · rw [hcf]
  · rw [hcf]
  · rw [hcf]; exact hnone
  · intro send2 n3 n4
    rw [hcf]
    rw [check_feeds_single_attempt net send2 n3 n4 S u E (ensureBucket L S) chan
      hnet hnone]
    simp

/-- Witness for C2 (amended): concrete failing sink; the entry is left
unrecorded and the cycle aborts. -/
theorem delivery_failure_retry_witness :
    (check_feeds
      (fun u => if u = "f" then NetResp.ok [⟨some "a", "T1", "L1"⟩]
        else NetResp.exn "down")
      (fun _ m => m != renderMessage ⟨some "a", "T1", "L1"⟩) "t" "t2"
      ⟨[("100", ["f"])], [], none⟩).aborted = true :=
  (delivery_failure_retry "100" "f" "t" "t2" ⟨some "a", "T1", "L1"⟩ [] none
    (fun u => if u = "f" then NetResp.ok [⟨some "a", "T1", "L1"⟩]
      else NetResp.exn "down")
    (fun _ m => m != renderMessage ⟨some "a", "T1", "L1"⟩)
    rfl (by decide) (by decide)).2.1

theorem seqStep_assoc (a : StepOut) (f g : Ledger → StepOut) :
    seqStep (seqStep a f) g = seqStep a (fun L => seqStep (f L) g) := by
  unfold seqStep
  by_cases ha : a.aborted = true
  · simp [ha]
  · simp only [ha, if_false, Bool.false_eq_true]
    by_cases hf : (f a.ledger).aborted = true
    · simp [hf]
    · simp [hf, List.append_assoc]

theorem processPairs_append (net : String → NetResp) (send : Sink) (now : String) :
    ∀ (xs ys : List (String × String)) (L : Ledger),
      processPairs net send now (xs ++ ys) L
        = seqStep (processPairs net send now xs L) (processPairs net send now ys) := by
  intro xs
  induction xs with
  | nil =>
    intro ys L
    simp [processPairs, seqStep]
  | cons p rest ih =>
    obtain ⟨uid, url⟩ := p
    intro ys L
    cases hf : fetch_feed false net url with
    | error m => simp [processPairs, hf, ih]
    | ok entries =>
      simp only [List.cons_append, processPairs, hf]
      rw [seqStep_assoc]
      congr 1
      funext L2
      exact ih ys L2

theorem processPairs_skip (net : String → NetResp) (send : Sink)
    (now uid url m : String) (ys : List (String × String)) (L : Ledger)
    (hf : fetch_feed false net url = Except.error m) :
    processPairs net send now ((uid, url) :: ys) L = processPairs net send now ys L := by
  simp [processPairs, hf]

theorem processEntries_noabort (send : Sink) (hsend : ∀ c msg, send c msg = true)
    (now uid : String) :
    ∀ (es : List Entry) (L : Ledger), (processEntries send now uid es L).aborted = false := by
  intro es
  induction es with
  | nil => intro L; rfl
  | cons e rest ih =>
    intro L
    by_cases hmem : (lookupA (bucketOf (ensureBucket L uid) uid) (entryId e)).isSome = true
    · simp [processEntries, hmem, ih]
    · simp [processEntries, hmem, hsend uid (renderMessage e), prependCall, ih]

theorem processPairs_noabort (net : String → NetResp) (send : Sink)
    (hsend : ∀ c msg, send c msg = true) (now : String) :
    ∀ (prs : List (String × String)) (L : Ledger),
      (processPairs net send now prs L).aborted = false := by
  intro prs
  induction prs with
  | nil => intro L; rfl
  | cons p rest ih =>
    obtain ⟨uid, url⟩ := p
    intro L
    cases hf : fetch_feed false net url with
    | error m => simp [processPairs, hf, ih]
    | ok entries =>
      simp [processPairs, hf, seqStep,
        processEntries_noabort send hsend now uid entries L, ih]

/-- C4: Fetch isolation — a fetch failure for any (user, url) pair in the
batch is skipped and the rest of the cycle is exactly what it would have
been without that pair (so every other source's fetch, dedup-filtering and
delivery are unaffected, wherever the failing pair sits in the batch);
and fetch failures are never raised to the caller: with a transport that
does not itself fail, the cycle always completes and saves, whatever the
network does. -/
theorem fetch_isolation :
    (∀ (net : String → NetResp) (send : Sink) (now : String)
       (xs ys : List (String × String)) (uid url m : String) (L : Ledger),
      fetch_feed false net url = Except.error m →
      processPairs net send now (xs ++ (uid, url) :: ys) L
        = processPairs net send now (xs ++ ys) L) ∧
    (∀ (net : String → NetResp) (now now2 : String) (st : BotState),
      (check_feeds net (fun _ _ => true) now now2 st).aborted = false ∧
      (check_feeds net (fun _ _ => true) now now2 st).savedFiles
        = [POSTED_ENTRIES_FILE]) := by
  constructor
  · intro net send now xs ys uid url m L hf
    rw [processPairs_append, processPairs_append]
    have hfun : (processPairs net send now ((uid, url) :: ys))
        = (processPairs net send now ys) := by
      funext L2
      exact processPairs_skip net send now uid url m ys L2 hf
    rw [hfun]
  · intro net now now2 st
    have hsend : ∀ (c msg : String), (fun (_ _ : String) => true) c msg = true :=
      fun _ _ => rfl
    have hab : (processPairs net (fun _ _ => true) now (pairsOf st.user_feeds)
        st.posted_entries).aborted = false :=
      processPairs_noabort net (fun _ _ => true) hsend now (pairsOf st.user_feeds)
        st.posted_entries
    cases hch : st.channel_id with
    | none => simp [check_feeds, hab, hch]
    | some ch => simp [check_feeds, hab, hch, post_to_channel_closed]

/-- Witness for C4: a failing source in the middle of the batch leaves the
cycle identical to the batch without it. -/
theorem fetch_isolation_witness :
    processPairs
      (fun u => if u = "bad" then NetResp.exn "boom"
        else NetResp.ok [⟨some "b", "T", "L"⟩])
      (fun _ _ => true) "t"
      ([("100", "good")] ++ ("100", "bad") :: [("200", "good")]) []
    = processPairs
      (fun u => if u = "bad" then NetResp.exn "boom"
        else NetResp.ok [⟨some "b", "T", "L"⟩])
      (fun _ _ => true) "t"
      ([("100", "good")] ++ [("200", "good")]) [] :=
  fetch_isolation.1
    (fun u => if u = "bad" then NetResp.exn "boom"
      else NetResp.ok [⟨some "b", "T", "L"⟩])
    (fun _ _ => true) "t" [("100", "good")] [("200", "good")] "100" "bad"
    "Error fetching bad: boom" [] rfl

/-- Counterexample to C5 as stated: a poll cycle that does mutate state (it
records a delivered entry) writes only `posted_entries.json` — neither the
subscriber list file nor the channel-binding file is persisted by
`check_feeds` (its only save call is `save_posted_entries()`, main.py
line 210). -/
theorem persistence_unit_cex :
    (check_feeds
      (fun u => if u = "f" then NetResp.ok [⟨some "a", "T1", "L1"⟩]
        else NetResp.exn "down")
      (fun _ _ => true) "t" "t2"
      ⟨[("100", ["f"])], [], none⟩).state.posted_entries ≠ ([] : Ledger) ∧
    FEEDS_FILE ∉ (check_feeds
      (fun u => if u = "f" then NetResp.ok [⟨some "a", "T1", "L1"⟩]
        else NetResp.exn "down")
      (fun _ _ => true) "t" "t2"
      ⟨[("100", ["f"])], [], none⟩).savedFiles ∧
    CHANNEL_CONFIG_FILE ∉ (check_feeds
      (fun u => if u = "f" then NetResp.ok [⟨some "a", "T1", "L1"⟩]
        else NetResp.exn "down")
      (fun _ _ => true) "t" "t2"
      ⟨[("100", ["f"])], [], none⟩).savedFiles := by
  refine ⟨by decide, by decide, by decide⟩

/-- C5 (amended): a poll cycle mutates only the Delivery Record, and that
is the only aggregate it persists — on a cycle with no uncaught delivery
exception exactly `posted_entries.json` is written (so nothing the cycle
mutated is left unpersisted), on an aborted cycle nothing is written, and
the Subscriber list and channel binding pass through the cycle
unchanged. -/
theorem persistence_scope (net : String → NetResp) (send : Sink)
    (now now2 : String) (st : BotState) :
    ((check_feeds net send now now2 st).aborted = false →
      (check_feeds net send now now2 st).savedFiles = [POSTED_ENTRIES_FILE]) ∧
    ((check_feeds net send now now2 st).aborted = true →
      (check_feeds net send now now2 st).savedFiles = []) ∧
    (check_feeds net send now now2 st).state.user_feeds = st.user_feeds ∧
    (check_feeds net send now now2 st).state.channel_id = st.channel_id := by
  by_cases hab : (processPairs net send now (pairsOf st.user_feeds)
      st.posted_entries).aborted = true
  · simp [check_feeds, hab]
  · cases hch : st.channel_id with
    | none => simp [check_feeds, hab, hch]
    | some ch => simp [check_feeds, hab, hch, post_to_channel_closed]

/-- Witness for C5 (amended): a concrete completed cycle writes exactly the
Delivery Record file. -/
theorem persistence_scope_witness :
    (check_feeds
      (fun u => if u = "f" then NetResp.ok [⟨some "a", "T1", "L1"⟩]
        else NetResp.exn "down")
      (fun _ _ => true) "t" "t2"
      ⟨[("100", ["f"])], [], none⟩).savedFiles = [POSTED_ENTRIES_FILE] :=
  (persistence_scope
    (fun u => if u = "f" then NetResp.ok [⟨some "a", "T1", "L1"⟩]
      else NetResp.exn "down")
    (fun _ _ => true) "t" "t2" ⟨[("100", ["f"])], [], none⟩).1 (by decide)

/-! ## Helpers for C10 -/

theorem count_removeFirst_self :
    ∀ (l : List String) (u : String), u ∈ l →
      (removeFirst l u).count u = l.count u - 1 := by
  intro l
  induction l with
  | nil => intro u h; simp at h
  | cons x xs ih =>
    intro u h
    by_cases hx : x = u
    · subst hx
      simp [removeFirst, List.count_cons_self]
    · have hm : u ∈ xs := by
        rcases List.mem_cons.mp h with h1 | h1
        · exact absurd h1.symm hx
        · exact h1
      have hux : u ≠ x := fun hh => hx hh.symm
      simp only [removeFirst, if_neg hx, List.count_cons_of_ne hux]
      exact ih u hm

theorem count_removeFirst_ne :
    ∀ (l : List String) (u v : String), v ≠ u →
      (removeFirst l u).count v = l.count v := by
  intro l
  induction l with
  | nil => intro u v hv; rfl
  | cons x xs ih =>
    intro u v hv
    by_cases hx : x = u
    · subst hx
      have hvx : v ≠ x := hv
      simp [removeFirst, List.count_cons_of_ne hvx]
    · simp only [removeFirst, if_neg hx]
      by_cases hvx : v = x
      · subst hvx
        rw [List.count_cons_self, List.count_cons_self, ih u v hv]
      · rw [List.count_cons_of_ne hvx, List.count_cons_of_ne hvx, ih u v hv]

theorem commands_add_feed_frame (chatId url : String) (d : BotData) :
    (commands_add_feed chatId url d).1.posted_entries = d.posted_entries ∧
    (commands_add_feed chatId url d).1.channel_id = d.channel_id ∧
    (commands_add_feed chatId url d).1.user_settings = d.user_settings := by
  refine ⟨?_, ?_, ?_⟩ <;>
    (simp only [commands_add_feed]; split <;> (try split) <;> rfl)

theorem commands_delete_feed_frame (chatId url : String) (d : BotData) :
    (commands_delete_feed chatId url d).1.posted_entries = d.posted_entries ∧
    (commands_delete_feed chatId url d).1.channel_id = d.channel_id ∧
    (commands_delete_feed chatId url d).1.user_settings = d.user_settings := by
  refine ⟨?_, ?_, ?_⟩ <;>
    (simp only [commands_delete_feed]; split <;> (try split) <;> rfl)

/-- C10: Removing a source is a pure frame effect on that chat's source
list — for `u` present in the list of chat `chatId`, `delete_feed` removes
exactly one occurrence of exactly that URL (the chat itself is deleted
when its list becomes empty), every other chat's list, the whole Delivery
Record, the channel binding and the settings are untouched, and re-adding
the same source then running a poll cycle never re-delivers an entry
whose identifier is already recorded for that chat. -/
theorem remove_source_frame (chatId u : String) (d : BotData)
    (hmem : u ∈ (lookupA d.user_feeds chatId).getD [])
    (hkeys : (d.user_feeds.map Prod.fst).Nodup) :
    ((lookupA (commands_delete_feed chatId u d).1.user_feeds chatId).getD []
        = removeFirst ((lookupA d.user_feeds chatId).getD []) u) ∧
    (removeFirst ((lookupA d.user_feeds chatId).getD []) u = [] →
      lookupA (commands_delete_feed chatId u d).1.user_feeds chatId = none) ∧
    ((removeFirst ((lookupA d.user_feeds chatId).getD []) u).count u
        = ((lookupA d.user_feeds chatId).getD []).count u - 1) ∧
    (∀ v : String, v ≠ u →
      (removeFirst ((lookupA d.user_feeds chatId).getD []) u).count v
        = ((lookupA d.user_feeds chatId).getD []).count v) ∧
    (commands_delete_feed chatId u d).1.posted_entries = d.posted_entries ∧
    (commands_delete_feed chatId u d).1.user_settings = d.user_settings ∧
    (commands_delete_feed chatId u d).1.channel_id = d.channel_id ∧
    (∀ c : String, c ≠ chatId →
      lookupA (commands_delete_feed chatId u d).1.user_feeds c
        = lookupA d.user_feeds c) ∧
    (∀ (E : Entry) (t : String) (net : String → NetResp) (send : Sink)
       (now now2 : String) (E2 : Entry),
      lookupA (bucketOf d.posted_entries chatId) (entryId E) = some t →
      (chatId, E2) ∈ (check_feeds net send now now2
        ⟨(commands_add_feed chatId u (commands_delete_feed chatId u d).1).1.user_feeds,
         (commands_add_feed chatId u (commands_delete_feed chatId u d).1).1.posted_entries,
         (commands_add_feed chatId u (commands_delete_feed chatId u d).1).1.channel_id⟩).calls →
      entryId E2 ≠ entryId E) := by
  cases hx : lookupA d.user_feeds chatId with
  | none => rw [hx] at hmem; simp at hmem
  | some l =>
    rw [hx] at hmem
    simp only [Option.getD_some] at hmem
    have hcd : (commands_delete_feed chatId u d).1.user_feeds
        = if removeFirst l u = [] then eraseA d.user_feeds chatId
          else setA d.user_feeds chatId (removeFirst l u) := by
      simp [commands_delete_feed, hx, hmem]
    simp only [Option.getD_some]
    refine ⟨?_, ?_, count_removeFirst_self l u hmem,
      (fun v hv => count_removeFirst_ne l u v hv),
      (commands_delete_feed_frame chatId u d).1,
      (commands_delete_feed_frame chatId u d).2.2,
      (commands_delete_feed_frame chatId u d).2.1, ?_, ?_⟩
    · rw [hcd]
      by_cases hemp : removeFirst l u = []
      · rw [if_pos hemp, lookupA_eraseA_self _ _ hkeys]
        simp [hemp]
      · rw [if_neg hemp, lookupA_setA_self]
        rfl
    · intro hemp
      rw [hcd, if_pos hemp]
      exact lookupA_eraseA_self _ _ hkeys
    · intro c hc
      rw [hcd]
      by_cases hemp : removeFirst l u = []
      · rw [if_pos hemp]
        exact lookupA_eraseA_ne _ _ _ hc
      · rw [if_neg hemp]
        exact lookupA_setA_ne _ _ _ _ hc
    · intro E t net send now now2 E2 hrec hcall
      have hpost : (commands_add_feed chatId u
          (commands_delete_feed chatId u d).1).1.posted_entries = d.posted_entries := by
        rw [(commands_add_feed_frame chatId u (commands_delete_feed chatId u d).1).1,
          (commands_delete_feed_frame chatId u d).1]
      have hrec2 : lookupA (bucketOf (commands_add_feed chatId u
          (commands_delete_feed chatId u d).1).1.posted_entries chatId)
          (entryId E) = some t := by
        rw [hpost]; exact hrec
      exact (check_feeds_recorded_stable net send now now2
        ⟨(commands_add_feed chatId u (commands_delete_feed chatId u d).1).1.user_feeds,
         (commands_add_feed chatId u (commands_delete_feed chatId u d).1).1.posted_entries,
         (commands_add_feed chatId u (commands_delete_feed chatId u d).1).1.channel_id⟩
        chatId (entryId E) t hrec2).2 E2 hcall

/-- Witness for C10: deleting `"f"` from the two-source list of chat
`"100"` leaves exactly the other source. -/
theorem remove_source_frame_witness :
    (lookupA (commands_delete_feed "100" "f"
        ⟨[("100", ["f", "g"])], [("100", [("a", "t")])], none, []⟩).1.user_feeds
      "100").getD []
    = removeFirst ((lookupA
        ([("100", ["f", "g"])] : Feeds) "100").getD []) "f" :=
  (remove_source_frame "100" "f"
    ⟨[("100", ["f", "g"])], [("100", [("a", "t")])], none, []⟩
    (by decide) (by decide)).1

end RSSBot
